import Mathlib

/-!
# Verification of the fabric dependency-injection container

A shallow embedding of the `container` package (service registry, singleton
cache, tag-driven injection, middleware chain, lifecycle tracking) together
with proofs and refutations of the frozen claims about it.

Modelling conventions:
* `reflect.Type` identities become `TypeKey := Nat`; service names stay `String`.
* A runtime value (`any`) is an `Inst`: an allocation identity `id` plus the
  dynamic type `dyn` of the value.  Reference equality is equality of `Inst`.
* Go maps `map[reflect.Type]map[string]T` become two-level association lists
  with Go map read/write semantics (`lookup2` / `mapSet2`).
* Type assertions `x.(T)` succeed iff `World.implements x.dyn key`, where
  `World` packages the ambient, immutable facts about the Go type system and
  user-written lifecycle code.
* Recursion between synthesized factories and nested resolution is interpreted
  with a fuel parameter (`exec`); running out of fuel yields an error, which
  models a resolution that never terminates.  Sequential (single-goroutine)
  executions are modelled; locks are no-ops sequentially.
-/

namespace Fabric

/-- Identity of a `reflect.Type` (stable and comparable, like the Go value). -/
abbrev TypeKey := Nat

/-- Service name; the empty string is the default name. -/
abbrev Name := String

/-- A runtime value: allocation identity plus dynamic type.  Two resolutions
return "the identical instance" exactly when the two `Inst` values are equal. -/
structure Inst where
  id : Nat
  dyn : TypeKey
deriving DecidableEq, Repr

/-- Ambient immutable environment: the Go type-implementation relation and the
behaviour of user lifecycle code.  `implements d k` says a value of dynamic
type `d` satisfies a type assertion against `k`. -/
structure World where
  implements : TypeKey → TypeKey → Bool
  isLifecycle : TypeKey → Bool
  initErr : Inst → Option String
  cleanupErr : Inst → Option String

/-- Observable actions of a resolution, used to state "the factory is not
invoked", middleware ordering, and cleanup ordering. -/
inductive Event where
  | factoryCall
  | middlewareCall (idx : Nat)
  | initCall (i : Inst)
  | cleanupCall (i : Inst)
deriving DecidableEq, Repr

/-- Go map read `m[name]` on the inner `map[string]α`. -/
def lookupA {α : Type} (m : List (Name × α)) (n : Name) : Option α :=
  (m.find? (fun p => p.1 == n)).map (·.2)

/-- Go map read `m[key]` on the outer `map[reflect.Type]...`. -/
def lookup2 {α : Type} (m : List (TypeKey × List (Name × α))) (k : TypeKey) :
    Option (List (Name × α)) :=
  (m.find? (fun p => p.1 == k)).map (·.2)

/-- Combined read `m[key][name]`. -/
def lookupPair {α : Type} (m : List (TypeKey × List (Name × α))) (k : TypeKey)
    (n : Name) : Option α :=
  match lookup2 m k with
  | some inner => lookupA inner n
  | none => none

/-- Go map write `inner[n] = a` (replace or add). -/
def setName {α : Type} (m : List (Name × α)) (n : Name) (a : α) :
    List (Name × α) :=
  if (lookupA m n).isSome then
    m.map (fun p => if p.1 == n then (n, a) else p)
  else m ++ [(n, a)]

/-- The write pattern used at every Go site touching the two-level maps:
`inner, exists := m[k]; if exists inner[n] = a else m[k] = {n: a}`. -/
def mapSet2 {α : Type} (m : List (TypeKey × List (Name × α))) (k : TypeKey)
    (n : Name) (a : α) : List (TypeKey × List (Name × α)) :=
  match lookup2 m k with
  | some _ => m.map (fun p => if p.1 == k then (p.1, setName p.2 n a) else p)
  | none => m ++ [(k, [(n, a)])]

/-- A struct field as reflection reports it: name, declared type, the value of
its `fabric` struct tag (`""` when absent), and whether it is settable. -/
structure FieldSpec where
  fname : String
  ftype : TypeKey
  tag : String
  canSet : Bool
deriving DecidableEq, Repr

/-- The reflection facts about a registered Go type `T` that the container
consults: its type key, whether `reflect.TypeOf(zero T)` is nil (interface
types), whether `T` is a pointer type, whether the (dereferenced) base type is
a struct, its declared fields, and the dynamic type of
`reflect.New(base).Interface()`. -/
structure GoTy where
  key : TypeKey
  nilZero : Bool
  isPtr : Bool
  baseIsStruct : Bool
  fields : List FieldSpec
  newDyn : TypeKey
deriving DecidableEq, Repr

/-- Deep embedding of the factory closures stored in a registration:
a `WithInstance` constant closure, a user factory that fails, a user factory
allocating a fresh value of a fixed dynamic type, and the two factories
`Register` synthesizes (`tags.go`). -/
inductive FactoryCode where
  | constInst (i : Inst)
  | failure (msg : String)
  | fresh (dyn : TypeKey)
  | defaultFac (ty : GoTy)
  | fabricFac (ty : GoTy)
deriving DecidableEq, Repr

/-- `RegistrationService` (service.go): name, singleton flag, factory, and the
interface-to-names capability mappings. -/
structure Registration where
  name : Name
  isSingleton : Bool
  factory : Option FactoryCode
  interfaces : List (TypeKey × List Name)
deriving DecidableEq, Repr

/-- `defaultRegistrationOptions` (service.go): transient, no factory, no
interface mappings. -/
def defaultRegistrationOptions : Registration :=
  { name := "", isSingleton := false, factory := none, interfaces := [] }

/-- A middleware (`MiddlewareService.Process`): may replace the instance or
fail.  Modelled as a pure transform of the instance. -/
def Middleware := TypeKey → Inst → Except String Inst

/-- A tag processor: the default `InjectTagProcessor`, or a custom processor
with its priority, `CanProcess` predicate, and a container-independent
`Process` implementation. -/
inductive Processor where
  | injectProc
  | custom (prio : Int) (can : String → Bool) (run : FieldSpec → String → Except String Inst)

/-- ASCII lower-casing of a character, as its code point (uppercase A-Z map
to a-z, everything else is unchanged). -/
def lowerNat (c : Char) : Nat :=
  if 65 ≤ c.toNat ∧ c.toNat ≤ 90 then c.toNat + 32 else c.toNat

/-- The lower-cased code points of a string — the ASCII model of
`strings.ToLower`. -/
def lowerStr (s : String) : List Nat := s.data.map lowerNat

/-- `l` begins with `pre` (the model of `strings.HasPrefix` on code-point
lists). -/
def leadsWith : List Nat → List Nat → Bool
  | [], _ => true
  | _ :: _, [] => false
  | a :: as, b :: bs => a == b && leadsWith as bs

/-- ASCII model of `strings.EqualFold`: equal up to letter case. -/
def equalFold (a b : String) : Bool := lowerStr a == lowerStr b

/-- `InjectTagProcessor.CanProcess` (processor_inject.go line 36):
`strings.EqualFold(value, "inject") || strings.HasPrefix(strings.ToLower(value), "inject:")`,
and a custom processor's own predicate. -/
def Processor.canProcess : Processor → String → Bool
  | .injectProc, v => equalFold v "inject" || leadsWith (lowerStr "inject:") (lowerStr v)
  | .custom _ can _, v => can v

/-- `GetPriority`: the inject processor reports priority 0. -/
def Processor.priority : Processor → Int
  | .injectProc => 0
  | .custom p _ _ => p

/-- `ServiceContainer` state: registrations, singleton cache, lifecycle
tracker, middleware chain, processor chain, plus the allocation counter that
realizes fresh Go heap allocations. -/
structure ContainerState where
  services : List (TypeKey × List (Name × Registration))
  singletons : List (TypeKey × List (Name × Inst))
  lifecycles : List Inst
  middlewares : List Middleware
  processors : List Processor
  nextId : Nat

/-- `NewServiceContainer` (container.go): empty maps, and the inject processor
registered by default.  Allocation ids start at 1; id 0 denotes zero values. -/
def newServiceContainer : ContainerState :=
  { services := [], singletons := [], lifecycles := [], middlewares := []
    processors := [.injectProc], nextId := 1 }

/-- Read of the singleton cache `sc.singletons[key][name]`. -/
def lookupSingleton (st : ContainerState) (k : TypeKey) (n : Name) : Option Inst :=
  lookupPair st.singletons k n

/-- The singleton-cache write in `ResolveName` (container_resolve.go lines
95-105) and `resolveByName` (processor_inject.go lines 123-134). -/
def insertSingleton (st : ContainerState) (k : TypeKey) (n : Name) (i : Inst) :
    ContainerState :=
  { st with singletons := mapSet2 st.singletons k n i }

/-- `TagProcessorManager.hasProcessorFor`: some registered processor accepts
the tag value. -/
def hasProcessorFor (st : ContainerState) (v : String) : Bool :=
  st.processors.any (fun p => p.canProcess v)

/-- `hasFabricTags[T]` (tags.go lines 9-32): nil zero value → false; after
dereferencing a pointer the type must be a struct; then some declared field's
fabric tag must be exactly `"inject"` (case-sensitive comparison `tag == "inject"`). -/
def hasFabricTags (ty : GoTy) : Bool :=
  if ty.nilZero then false
  else if !ty.baseIsStruct then false
  else ty.fields.any (fun f => f.tag == "inject")

/-- `validateFabricTags[T]` (tags.go lines 34-56): non-struct → `(false, nil)`;
otherwise the first field whose non-empty tag has no processor yields
`(false, error)`; else `(true, nil)`. -/
def validateFabricTags (st : ContainerState) (ty : GoTy) : Bool × Option String :=
  if ty.baseIsStruct then
    match ty.fields.find? (fun f => f.tag != "" && !(hasProcessorFor st f.tag)) with
    | some f =>
        (false, some ("no processor registered for fabric tag '" ++ f.tag ++
          "' on field '" ++ f.fname ++ "'"))
    | none => (true, none)
  else (false, none)

/-- The middleware loop of `ResolveName` (container_resolve.go lines 81-86) and
`resolveByName` (processor_inject.go lines 110-115): chained application in
list order, aborting on the first error.  `idx` numbers the emitted events. -/
def applyMiddlewares : List Middleware → TypeKey → Inst → Nat →
    Except String Inst × List Event
  | [], _, i, _ => (.ok i, [])
  | m :: rest, key, i, idx =>
    match m key i with
    | .error e => (.error e, [.middlewareCall idx])
    | .ok i2 =>
      match applyMiddlewares rest key i2 (idx + 1) with
      | (r, evs) => (r, .middlewareCall idx :: evs)

/-- `ServiceContainer.runLifecycle` (container.go lines 283-292): if the
instance is lifecycle-managed, run `Init`; on success append it to the
tracker, on failure return the error without appending. -/
def runLifecycle (w : World) (inst : Inst) (st : ContainerState) :
    Except String Unit × ContainerState × List Event :=
  if w.isLifecycle inst.dyn then
    match w.initErr inst with
    | some e => (.error e, st, [.initCall inst])
    | none => (.ok (), { st with lifecycles := st.lifecycles ++ [inst] }, [.initCall inst])
  else (.ok (), st, [])

/-- The `Errors` accumulator (errors.go): an ordered list of collected errors. -/
structure Errors where
  errors : List String
deriving DecidableEq, Repr

/-- `Errors.Add`: nil errors are ignored, others appended. -/
def Errors.add (e : Errors) (err : Option String) : Errors :=
  match err with
  | none => e
  | some m => { errors := e.errors ++ [m] }

/-- `Errors.Errors`: nil when empty, otherwise the `errors.Join` of all
collected errors (joined messages separated by newlines). -/
def Errors.joined (e : Errors) : Option String :=
  if e.errors.isEmpty then none
  else some (String.intercalate "\n" e.errors)

/-- One iteration of the `Cleanup` loop body (container.go lines 149-153). -/
def cleanupStep (w : World) (acc : Errors × List Event) (inst : Inst) :
    Errors × List Event :=
  match w.cleanupErr inst with
  | some e =>
      (acc.1.add (some ("error during container cleanup: " ++ e)),
        acc.2 ++ [.cleanupCall inst])
  | none => (acc.1, acc.2 ++ [.cleanupCall inst])

/-- `ServiceContainer.Cleanup` (container.go lines 147-156): iterate the
lifecycle tracker from the last element to the first, collect every cleanup
error, and return the joined error. -/
def cleanup (w : World) (st : ContainerState) : Option String × List Event :=
  let res := st.lifecycles.reverse.foldl (cleanupStep w) (⟨[]⟩, [])
  (res.1.joined, res.2)

/-- Tab, newline, and carriage return (written via code points so the model
stays free of escape-sequence literals). -/
def char9 : Char := Char.ofNat 9

/-- Newline character. -/
def char10 : Char := Char.ofNat 10

/-- Carriage-return character. -/
def char13 : Char := Char.ofNat 13

/-- ASCII whitespace, as trimmed by `strings.TrimSpace`. -/
def isSpaceChar (c : Char) : Bool :=
  c == ' ' || c == char9 || c == char10 || c == char13

/-- Strip leading and trailing whitespace (model of `strings.TrimSpace`). -/
def trimChars (l : List Char) : List Char :=
  ((l.dropWhile isSpaceChar).reverse.dropWhile isSpaceChar).reverse

/-- The characters after the first colon, if any (the `parts[1]` of
`strings.SplitN(value, ":", 2)`). -/
def afterColon : List Char → Option (List Char)
  | [] => none
  | c :: rest => if c == ':' then some rest else afterColon rest

/-- `strings.SplitN(value, ":", 2)` followed by `strings.TrimSpace(parts[1])`
(processor_inject.go lines 47-54): the trimmed text after the first colon,
or `""` when the value has no colon. -/
def parseServiceName (value : String) : String :=
  match afterColon value.data with
  | some rest => String.mk (trimChars rest)
  | none => ""

/-- The call shapes of the mutually recursive resolution core.  `runFac`
interprets a factory closure; `fields` is the field loop of the synthesized
fabric factory (tags.go lines 77-96); `field` is
`TagProcessorManager.processField`; `byType` is
`ServiceContainer.ResolveByType` (container.go lines 203-239); `byName` is
`InjectTagProcessor.resolveByName` (processor_inject.go lines 72-137). -/
inductive Call where
  | runFac (fc : FactoryCode)
  | fields (flds : List FieldSpec)
  | field (fld : FieldSpec) (value : String)
  | byType (t : TypeKey)
  | byName (t : TypeKey) (name : Name)

/-- The mutually recursive resolution core, interpreted with fuel.  The value
is `some` instance for calls that produce one, and `none` both for the field
loop (which returns no value) and for `byType`'s "not found" outcome (Go's
`return false, nil`; `byType` swallows factory errors the same way the source
does).  Named wrappers below recover the per-function signatures. -/
def exec (w : World) : Nat → Call → ContainerState →
    Except String (Option Inst) × ContainerState × List Event
  | 0, _, st => (.error "resolution depth exceeded", st, [])
  | fuel + 1, .runFac fc, st =>
    match fc with
    | .constInst i => (.ok (some i), st, [])
    | .failure msg => (.error msg, st, [])
    | .fresh dyn =>
        (.ok (some ⟨st.nextId, dyn⟩), { st with nextId := st.nextId + 1 }, [])
    | .defaultFac ty =>
        -- part_001 lines 73-89: pointer-to-struct gets a fresh heap value,
        -- everything else returns the zero value (modelled with id 0).
        if !ty.nilZero && ty.isPtr && ty.baseIsStruct then
          (.ok (some ⟨st.nextId, ty.key⟩), { st with nextId := st.nextId + 1 }, [])
        else (.ok (some ⟨0, ty.key⟩), st, [])
    | .fabricFac ty =>
        -- tags.go lines 58-101.
        if ty.nilZero then (.error "fabric tags not defined", st, [])
        else if !ty.baseIsStruct then
          (.error "fabric tags can only be used with struct types", st, [])
        else
          let inst : Inst := ⟨st.nextId, ty.newDyn⟩
          let st0 := { st with nextId := st.nextId + 1 }
          match exec w fuel (.fields ty.fields) st0 with
          | (.error e, st1, ev) => (.error e, st1, ev)
          | (.ok _, st1, ev) => (.ok (some inst), st1, ev)
  | fuel + 1, .fields flds, st =>
    match flds with
    | [] => (.ok none, st, [])
    | f :: rest =>
      -- tags.go lines 77-96: skip unsettable fields and empty tags; wrap a
      -- field's processing error with its field name.
      if f.canSet && f.tag != "" then
        match exec w fuel (.field f f.tag) st with
        | (.error e, st1, ev) =>
            (.error ("failed to process fabric tag for field '" ++ f.fname ++
              "': " ++ e), st1, ev)
        | (.ok _, st1, ev) =>
          match exec w fuel (.fields rest) st1 with
          | (r, st2, ev2) => (r, st2, ev ++ ev2)
      else exec w fuel (.fields rest) st
  | fuel + 1, .field fld value, st =>
    -- part_002 lines 73-81: dispatch to the first processor accepting the tag.
    match st.processors.find? (fun p => p.canProcess value) with
    | none => (.error ("no processor found for tag value: " ++ value), st, [])
    | some (.custom _ _ run) =>
      match run fld value with
      | .error e => (.error e, st, [])
      | .ok i => (.ok (some i), st, [])
    | some .injectProc =>
      -- processor_inject.go lines 46-69.
      let serviceName := parseServiceName value
      if serviceName != "" then exec w fuel (.byName fld.ftype serviceName) st
      else
        match exec w fuel (.byType fld.ftype) st with
        | (.ok (some r), st1, ev) => (.ok (some r), st1, ev)
        | (.ok none, st1, ev) =>
            (.error ("failed to inject type for field '" ++ fld.fname ++ "'"),
              st1, ev)
        | (.error e, st1, ev) => (.error e, st1, ev)
  | fuel + 1, .byType t, st =>
    -- container.go lines 203-239; every failure is swallowed into (false, nil).
    match lookup2 st.services t with
    | none => (.ok none, st, [])
    | some serviceMaps =>
      match lookupA serviceMaps "" with
      | none => (.ok none, st, [])
      | some service =>
        let cached : Option Inst :=
          if service.isSingleton then lookupPair st.singletons t "" else none
        match cached with
        | some s => (.ok (some s), st, [])
        | none =>
          match service.factory with
          | none => (.ok none, st, [])
          | some fc =>
            match exec w fuel (.runFac fc) st with
            | (.error _, st1, ev) => (.ok none, st1, .factoryCall :: ev)
            | (.ok r, st1, ev) => (.ok r, st1, .factoryCall :: ev)
  | fuel + 1, .byName t name, st =>
    -- processor_inject.go lines 72-137.
    match lookup2 st.services t with
    | none => (.error "no service registered for type", st, [])
    | some serviceMaps =>
      match lookupA serviceMaps name with
      | none =>
          (.error ("no service registered for type with name '" ++ name ++ "'"),
            st, [])
      | some service =>
        let cached : Option Inst :=
          if service.isSingleton then lookupPair st.singletons t name else none
        match cached with
        | some s => (.ok (some s), st, [])
        | none =>
          match service.factory with
          | none =>
              (.error ("no factory available for service with name '" ++ name ++
                "'"), st, [])
          | some fc =>
            match exec w fuel (.runFac fc) st with
            | (.error e, st1, ev) =>
                (.error ("failed to create service: " ++ e), st1,
                  .factoryCall :: ev)
            | (.ok none, st1, ev) =>
                -- unreachable: a factory call always produces an instance
                (.error "factory produced no instance", st1, .factoryCall :: ev)
            | (.ok (some inst0), st1, ev) =>
              match applyMiddlewares st1.middlewares t inst0 0 with
              | (.error e, mev) =>
                  (.error ("failed to process middleware: " ++ e), st1,
                    .factoryCall :: ev ++ mev)
              | (.ok inst1, mev) =>
                match runLifecycle w inst1 st1 with
                | (.error e, st2, lev) =>
                    (.error ("failed to run lifecycle: " ++ e), st2,
                      .factoryCall :: ev ++ mev ++ lev)
                | (.ok _, st2, lev) =>
                  let st3 :=
                    if service.isSingleton then insertSingleton st2 t name inst1
                    else st2
                  (.ok (some inst1), st3, .factoryCall :: ev ++ mev ++ lev)

/-- Invoking a registration's factory (`service.Factory(ctx, sc)`). -/
def runFactory (w : World) (fuel : Nat) (fc : FactoryCode) (st : ContainerState) :
    Except String Inst × ContainerState × List Event :=
  match exec w fuel (.runFac fc) st with
  | (.ok (some i), st', ev) => (.ok i, st', ev)
  | (.ok none, st', ev) => (.error "factory produced no instance", st', ev)
  | (.error e, st', ev) => (.error e, st', ev)

/-- `TagProcessorManager.processField` with the registered processors. -/
def processField (w : World) (fuel : Nat) (fld : FieldSpec) (value : String)
    (st : ContainerState) : Except String Inst × ContainerState × List Event :=
  match exec w fuel (.field fld value) st with
  | (.ok (some i), st', ev) => (.ok i, st', ev)
  | (.ok none, st', ev) => (.error "no value produced", st', ev)
  | (.error e, st', ev) => (.error e, st', ev)

/-- `ServiceContainer.ResolveByType`: `(bool, any)` becomes `Option Inst`. -/
def resolveByType (w : World) (fuel : Nat) (t : TypeKey) (st : ContainerState) :
    Option Inst × ContainerState × List Event :=
  match exec w fuel (.byType t) st with
  | (.ok r, st', ev) => (r, st', ev)
  | (.error _, st', ev) => (none, st', ev)

/-- `InjectTagProcessor.resolveByName`. -/
def procResolveByName (w : World) (fuel : Nat) (t : TypeKey) (name : Name)
    (st : ContainerState) : Except String Inst × ContainerState × List Event :=
  match exec w fuel (.byName t name) st with
  | (.ok (some i), st', ev) => (.ok i, st', ev)
  | (.ok none, st', ev) => (.error "no value produced", st', ev)
  | (.error e, st', ev) => (.error e, st', ev)

/-- The singleton fast path of `ResolveName` (container_resolve.go lines
46-69), including the sequentially redundant second check (the "double mutex
lock checking" block, identical to the first in a single-threaded run).
`some r` means the fast path returns `r`; `none` means fall through to
creation. -/
def singletonFastPath (w : World) (st : ContainerState) (key : TypeKey)
    (name : Name) (reg : Registration) : Option (Except String Inst) :=
  if reg.isSingleton then
    match lookupSingleton st key name with
    | some s =>
        some (if w.implements s.dyn key then .ok s
          else .error "failed to cast stored singleton")
    | none =>
      match lookupSingleton st key name with
      | some s =>
          some (if w.implements s.dyn key then .ok s
            else .error "failed to cast stored singleton")
      | none => none
  else none

/-- The post-factory tail of `ResolveName` (container_resolve.go lines 76-107):
checked type assertion on the factory result, middleware chain, lifecycle
init, singleton-cache write, and the final (unchecked — panicking) assertion
on the possibly middleware-replaced instance. -/
def finishCreate (w : World) (key : TypeKey) (name : Name) (reg : Registration)
    (st1 : ContainerState) (inst : Inst) :
    Except String Inst × ContainerState × List Event :=
  if !(w.implements inst.dyn key) then
    (.error "failed to cast singleton to requested type", st1, [])
  else
    match applyMiddlewares st1.middlewares key inst 0 with
    | (.error e, mev) =>
        (.error ("failed to process middleware during singleton creator: " ++ e),
          st1, mev)
    | (.ok out, mev) =>
      match runLifecycle w out st1 with
      | (.error e, st2, lev) => (.error e, st2, mev ++ lev)
      | (.ok _, st2, lev) =>
        let st3 := if reg.isSingleton then insertSingleton st2 key name out else st2
        if w.implements out.dyn key then (.ok out, st3, mev ++ lev)
        else (.error "panic: interface conversion on middleware result", st3,
          mev ++ lev)

/-- `ResolveName[T]` (container_resolve.go lines 29-108): two-stage lookup with
distinct errors, singleton fast path, then factory / middleware / lifecycle /
cache.  A nil factory field would make the Go code panic when invoked. -/
def resolveName (w : World) (fuel : Nat) (key : TypeKey) (name : Name)
    (st : ContainerState) : Except String Inst × ContainerState × List Event :=
  match lookup2 st.services key with
  | none => (.error "registration for type not found", st, [])
  | some serviceMaps =>
    match lookupA serviceMaps name with
    | none =>
        (.error ("registration for type and name '" ++ name ++ "' not found"),
          st, [])
    | some service =>
      match singletonFastPath w st key name service with
      | some r => (r, st, [])
      | none =>
        match service.factory with
        | none => (.error "panic: nil factory", st, [])
        | some fc =>
          match runFactory w fuel fc st with
          | (.error e, st1, ev1) => (.error e, st1, .factoryCall :: ev1)
          | (.ok inst, st1, ev1) =>
            match finishCreate w key name service st1 inst with
            | (r2, st2, ev2) => (r2, st2, .factoryCall :: ev1 ++ ev2)

/-- `Resolve[T]` — `ResolveName` with the empty name. -/
def resolve (w : World) (fuel : Nat) (key : TypeKey) (st : ContainerState) :
    Except String Inst × ContainerState × List Event :=
  resolveName w fuel key "" st

/-- Deep embedding of the `RegistrationOption` values (service.go), plus a
representative user-written option that fails (a `RegistrationOption` is any
`func(*RegistrationService) error`). -/
inductive RegOption where
  | asSingleton
  | asFactory (fc : FactoryCode)
  | withInstance (i : Inst)
  | withCap (iface : TypeKey)
  | withNamedCap (iface : TypeKey) (name : Name)
  | failingOpt (msg : String)
deriving DecidableEq, Repr

/-- The shared body of `With[I]` / `WithName[I]` (service.go lines 117-153):
ensure the interface has an entry, then append the name. -/
def addIfaceName (r : Registration) (iface : TypeKey) (n : Name) : Registration :=
  match r.interfaces.find? (fun p => p.1 == iface) with
  | some _ =>
      { r with interfaces :=
          r.interfaces.map (fun p => if p.1 == iface then (p.1, p.2 ++ [n]) else p) }
  | none => { r with interfaces := r.interfaces ++ [(iface, [n])] }

/-- Application of one registration option to the options record. -/
def applyOpt (r : Registration) : RegOption → Except String Registration
  | .asSingleton => .ok { r with isSingleton := true }
  | .asFactory fc => .ok { r with factory := some fc }
  | .withInstance i => .ok { r with factory := some (.constInst i) }
  | .withCap iface => .ok (addIfaceName r iface "")
  | .withNamedCap iface n => .ok (addIfaceName r iface n)
  | .failingOpt msg => .error msg

/-- The option loop of `Register` (part_001 lines 52-56): apply in call order,
stopping at the first error. -/
def applyOpts : Registration → List RegOption → Except String Registration
  | r, [] => .ok r
  | r, o :: rest =>
    match applyOpt r o with
    | .error e => .error e
    | .ok r' => applyOpts r' rest

/-- Factory synthesis of `Register` (part_001 lines 59-91): keep a supplied
factory; otherwise synthesize the fabric-tag factory (after validating tags)
or the default zero-value factory. -/
def synthFactory (st : ContainerState) (ty : GoTy) (r : Registration) :
    Except String Registration :=
  match r.factory with
  | some _ => .ok r
  | none =>
    if hasFabricTags ty then
      match validateFabricTags st ty with
      | (_, some e) => .error ("failed to validate fabric tags: " ++ e)
      | (false, none) => .error "no valid factory found during registration"
      | (true, none) => .ok { r with factory := some (.fabricFac ty) }
    else .ok { r with factory := some (.defaultFac ty) }

/-- The registration value `Register[T]` builds before touching the maps:
options application (with its error wrapping) followed by factory synthesis. -/
def buildRegistration (st : ContainerState) (ty : GoTy) (opts : List RegOption) :
    Except String Registration :=
  match applyOpts defaultRegistrationOptions opts with
  | .error e => .error ("failed to complete registration: " ++ e)
  | .ok r => synthFactory st ty r

/-- The inner name loop of the interface-index phase of `Register`
(part_001 lines 110-112). -/
def insertNames (reg : Registration) (iface : TypeKey) (names : List Name)
    (st : ContainerState) : ContainerState :=
  names.foldl
    (fun acc2 n => { acc2 with services := mapSet2 acc2.services iface n reg })
    st

/-- The interface-index loop of `Register` (part_001 lines 103-113): store the
same registration under every declared capability key and name. -/
def insertInterfaces (reg : Registration) (st : ContainerState) : ContainerState :=
  reg.interfaces.foldl (fun acc p => insertNames reg p.1 p.2 acc) st

/-- `Register[T]` (part_001 lines 47-116): build the registration, store it
under the concrete type key at its name, then index it under every declared
interface mapping.  Errors abort before any map is touched. -/
def register (st : ContainerState) (ty : GoTy) (opts : List RegOption) :
    Option String × ContainerState :=
  match buildRegistration st ty opts with
  | .error e => (some e, st)
  | .ok reg =>
    let s1 := { st with services := mapSet2 st.services ty.key reg.name reg }
    (none, insertInterfaces reg s1)

/-! ## Association-list lemmas for the two-level Go maps -/

theorem lookupA_append {α : Type} (m l2 : List (Name × α)) (n : Name) :
    lookupA (m ++ l2) n =
      match lookupA m n with
      | some v => some v
      | none => lookupA l2 n := by
  induction m with
  | nil => simp [lookupA]
  | cons p rest ih =>
    by_cases hb : p.1 == n
    · simp [lookupA, List.find?, hb]
    · simp only [Bool.not_eq_true] at hb
      simpa [lookupA, List.find?, hb] using ih

theorem lookupA_replace_self {α : Type} (m : List (Name × α)) (n : Name)
    (a : α) (h : (lookupA m n).isSome) :
    lookupA (m.map (fun p => if p.1 == n then (n, a) else p)) n = some a := by
  induction m with
  | nil => simp [lookupA] at h
  | cons p rest ih =>
    by_cases hb : p.1 == n
    · simp [lookupA, List.find?, hb]
    · simp only [Bool.not_eq_true] at hb
      have h' : (lookupA rest n).isSome := by
        simpa [lookupA, List.find?, hb] using h
      simpa [lookupA, List.find?, hb] using ih h'

theorem lookupA_replace_ne {α : Type} (m : List (Name × α)) (n n' : Name)
    (a : α) (h : (n' == n) = false) :
    lookupA (m.map (fun p => if p.1 == n then (n, a) else p)) n' =
      lookupA m n' := by
  have hne : n' ≠ n := by simpa using h
  induction m with
  | nil => simp [lookupA]
  | cons p rest ih =>
    by_cases hb : p.1 == n
    · have hp : p.1 = n := by simpa using hb
      have hb' : (n == n') = false := by
        simp only [beq_eq_false_iff_ne]; exact fun hc => hne hc.symm
      have hb'' : (p.1 == n') = false := by rw [hp]; exact hb'
      simpa [lookupA, List.find?, hb, hb', hb''] using ih
    · simp only [Bool.not_eq_true] at hb
      by_cases hp' : p.1 == n'
      · simp [lookupA, List.find?, hb, hp']
      · simp only [Bool.not_eq_true] at hp'
        simpa [lookupA, List.find?, hb, hp'] using ih

theorem lookupA_setName_self {α : Type} (m : List (Name × α)) (n : Name)
    (a : α) : lookupA (setName m n a) n = some a := by
  unfold setName
  cases h : (lookupA m n).isSome with
  | true =>
    rw [if_pos rfl]
    exact lookupA_replace_self m n a h
  | false =>
    rw [if_neg (by simp)]
    rw [lookupA_append]
    have hnone : lookupA m n = none := by
      cases hA : lookupA m n with
      | none => rfl
      | some v => rw [hA] at h; simp at h
    rw [hnone]
    simp [lookupA, List.find?]

theorem lookupA_setName_ne {α : Type} (m : List (Name × α)) (n n' : Name)
    (a : α) (h : (n' == n) = false) :
    lookupA (setName m n a) n' = lookupA m n' := by
  unfold setName
  cases hs : (lookupA m n).isSome with
  | true =>
    rw [if_pos rfl]
    exact lookupA_replace_ne m n n' a h
  | false =>
    rw [if_neg (by simp)]
    rw [lookupA_append]
    have hsymm : (n == n') = false := by
      simp only [beq_eq_false_iff_ne] at h ⊢
      exact fun hc => h hc.symm
    have : lookupA ([(n, a)] : List (Name × α)) n' = none := by
      simp [lookupA, List.find?, hsymm]
    rw [this]
    cases lookupA m n' <;> rfl

theorem lookup2_append {α : Type} (m l2 : List (TypeKey × List (Name × α)))
    (k : TypeKey) :
    lookup2 (m ++ l2) k =
      match lookup2 m k with
      | some v => some v
      | none => lookup2 l2 k := by
  induction m with
  | nil => simp [lookup2]
  | cons p rest ih =>
    by_cases hb : p.1 == k
    · simp [lookup2, List.find?, hb]
    · simp only [Bool.not_eq_true] at hb
      simpa [lookup2, List.find?, hb] using ih

theorem lookup2_replace_self {α : Type} (m : List (TypeKey × List (Name × α)))
    (k : TypeKey) (f : List (Name × α) → List (Name × α))
    (inner : List (Name × α)) (h : lookup2 m k = some inner) :
    lookup2 (m.map (fun p => if p.1 == k then (p.1, f p.2) else p)) k =
      some (f inner) := by
  induction m with
  | nil => simp [lookup2] at h
  | cons p rest ih =>
    by_cases hb : p.1 == k
    · have hin : p.2 = inner := by
        simpa [lookup2, List.find?, hb] using h
      simp [lookup2, List.find?, hb, hin]
    · simp only [Bool.not_eq_true] at hb
      have h' : lookup2 rest k = some inner := by
        simpa [lookup2, List.find?, hb] using h
      simpa [lookup2, List.find?, hb] using ih h'

theorem lookup2_replace_ne {α : Type} (m : List (TypeKey × List (Name × α)))
    (k k' : TypeKey) (f : List (Name × α) → List (Name × α))
    (h : (k' == k) = false) :
    lookup2 (m.map (fun p => if p.1 == k then (p.1, f p.2) else p)) k' =
      lookup2 m k' := by
  have hne : k' ≠ k := by simpa using h
  induction m with
  | nil => simp [lookup2]
  | cons p rest ih =>
    by_cases hb : p.1 == k
    · have hp : p.1 = k := by simpa using hb
      have hb'' : (p.1 == k') = false := by
        rw [hp]; simp only [beq_eq_false_iff_ne]
        exact fun hc => hne hc.symm
      simpa [lookup2, List.find?, hb, hb''] using ih
    · simp only [Bool.not_eq_true] at hb
      by_cases hp' : p.1 == k'
      · simp [lookup2, List.find?, hb, hp']
      · simp only [Bool.not_eq_true] at hp'
        simpa [lookup2, List.find?, hb, hp'] using ih

/-- Writing `(k, n) ↦ a` makes `(k, n)` read back `a`. -/
theorem lookupPair_mapSet2_self {α : Type} (m : List (TypeKey × List (Name × α)))
    (k : TypeKey) (n : Name) (a : α) :
    lookupPair (mapSet2 m k n a) k n = some a := by
  unfold mapSet2
  cases h2 : lookup2 m k with
  | some inner =>
    unfold lookupPair
    rw [lookup2_replace_self m k (fun i => setName i n a) inner h2]
    exact lookupA_setName_self inner n a
  | none =>
    unfold lookupPair
    rw [lookup2_append, h2]
    simp [lookup2, lookupA, List.find?]

/-- Every slot after a write holds either the written value or its old value. -/
theorem lookupPair_mapSet2_or {α : Type} (m : List (TypeKey × List (Name × α)))
    (k k' : TypeKey) (n n' : Name) (a : α) :
    lookupPair (mapSet2 m k n a) k' n' = some a ∨
      lookupPair (mapSet2 m k n a) k' n' = lookupPair m k' n' := by
  unfold mapSet2
  cases h2 : lookup2 m k with
  | some inner =>
    by_cases hk : k' == k
    · have hkk : k' = k := by simpa using hk
      subst hkk
      unfold lookupPair
      rw [lookup2_replace_self m k' (fun i => setName i n a) inner h2, h2]
      by_cases hn : n' == n
      · have hnn : n' = n := by simpa using hn
        subst hnn
        exact Or.inl (lookupA_setName_self inner n' a)
      · simp only [Bool.not_eq_true] at hn
        exact Or.inr (lookupA_setName_ne inner n n' a hn)
    · simp only [Bool.not_eq_true] at hk
      unfold lookupPair
      rw [lookup2_replace_ne m k k' (fun i => setName i n a) hk]
      exact Or.inr rfl
  | none =>
    unfold lookupPair
    rw [lookup2_append]
    by_cases hk : k' == k
    · have hkk : k' = k := by simpa using hk
      subst hkk
      rw [h2]
      have : lookup2 ([(k', [(n, a)])] : List (TypeKey × List (Name × α))) k' =
          some [(n, a)] := by simp [lookup2, List.find?]
      rw [this]
      by_cases hn : n' == n
      · have hnn : n' = n := by simpa using hn
        subst hnn
        exact Or.inl (by simp [lookupA, List.find?])
      · simp only [Bool.not_eq_true] at hn
        refine Or.inr ?_
        have hsymm : (n == n') = false := by
          simp only [beq_eq_false_iff_ne] at hn ⊢
          exact fun hc => hn hc.symm
        simp [lookupA, List.find?, hsymm]
    · simp only [Bool.not_eq_true] at hk
      cases hm : lookup2 m k' with
      | some v => exact Or.inr rfl
      | none =>
        have hsymm : (k == k') = false := by
          simp only [beq_eq_false_iff_ne] at hk ⊢
          exact fun hc => hk hc.symm
        have : lookup2 ([(k, [(n, a)])] : List (TypeKey × List (Name × α))) k' =
            none := by simp [lookup2, List.find?, hsymm]
        rw [this]
        exact Or.inr rfl

/-! ## State invariants of the resolution core -/

theorem runLifecycle_services (w : World) (i : Inst) (st : ContainerState) :
    ((runLifecycle w i st).2.1).services = st.services := by
  unfold runLifecycle
  split
  · split <;> rfl
  · rfl

theorem insertSingleton_services (st : ContainerState) (k : TypeKey) (n : Name)
    (i : Inst) : (insertSingleton st k n i).services = st.services := rfl

/-- Resolution never touches the registry: every call shape of the resolution
core leaves `services` untouched (only the singleton cache, the lifecycle
tracker, and the allocation counter change). -/
theorem exec_services (w : World) :
    ∀ (fuel : Nat) (c : Call) (st : ContainerState),
    ((exec w fuel c st).2.1).services = st.services := by
  intro fuel
  induction fuel with
  | zero => intro c st; rfl
  | succ n ih =>
    intro c st
    cases c with
    | runFac fc =>
      cases fc with
      | constInst i => rfl
      | failure msg => rfl
      | fresh dyn => rfl
      | defaultFac ty =>
        simp only [exec]
        split <;> rfl
      | fabricFac ty =>
        simp only [exec]
        split
        · rfl
        split
        · rfl
        · split
          all_goals
            rename_i heq
            have h := ih (.fields ty.fields)
              { st with nextId := st.nextId + 1 }
            rw [heq] at h
            exact h
    | fields flds =>
      cases flds with
      | nil => rfl
      | cons f rest =>
        simp only [exec]
        split
        · split
          · rename_i heq
            have h := ih (.field f f.tag) st
            rw [heq] at h
            exact h
          · rename_i st1 ev heq
            have h1 := ih (.field f f.tag) st
            rw [heq] at h1
            exact (ih (.fields rest) st1).trans h1
        · exact ih (.fields rest) st
    | field fld value =>
      simp only [exec]
      split
      · rfl
      · rename_i run
        split <;> rfl
      · split
        · exact ih (.byName fld.ftype (parseServiceName value)) st
        · split
          all_goals
            rename_i heq
            have h := ih (.byType fld.ftype) st
            rw [heq] at h
            exact h
    | byType t =>
      simp only [exec]
      split
      · rfl
      · split
        · rfl
        · split
          · rfl
          · split
            · rfl
            · rename_i fc hfc
              split
              all_goals
                rename_i heq
                have h := ih (.runFac fc) st
                rw [heq] at h
                exact h
    | byName t name =>
      simp only [exec]
      split
      · rfl
      · split
        · rfl
        · split
          · rfl
          · split
            · rfl
            · rename_i fc hfc
              split
              · rename_i heq
                have h := ih (.runFac fc) st
                rw [heq] at h
                exact h
              · rename_i heq
                have h := ih (.runFac fc) st
                rw [heq] at h
                exact h
              · rename_i inst0 st1 ev heq
                split
                · rename_i mev hm
                  have h := ih (.runFac fc) st
                  rw [heq] at h
                  exact h
                · rename_i inst1 mev hm
                  split
                  · rename_i st2 lev hl
                    have h := ih (.runFac fc) st
                    rw [heq] at h
                    have h2 := runLifecycle_services w inst1 st1
                    rw [hl] at h2
                    exact h2.trans h
                  · rename_i st2 lev hl
                    have h := ih (.runFac fc) st
                    rw [heq] at h
                    have h2 := runLifecycle_services w inst1 st1
                    rw [hl] at h2
                    split
                    · exact (insertSingleton_services st2 t name inst1).trans
                        (h2.trans h)
                    · exact h2.trans h

/-- Corollary for the factory-invocation wrapper. -/
theorem runFactory_services (w : World) (fuel : Nat) (fc : FactoryCode)
    (st : ContainerState) :
    ((runFactory w fuel fc st).2.1).services = st.services := by
  unfold runFactory
  split
  all_goals
    rename_i heq
    have h := exec_services w fuel (.runFac fc) st
    rw [heq] at h
    exact h

theorem runLifecycle_singletons (w : World) (i : Inst) (st : ContainerState) :
    ((runLifecycle w i st).2.1).singletons = st.singletons := by
  unfold runLifecycle
  split
  · split <;> rfl
  · rfl

/-- Left-to-right chaining of the middleware loop: each middleware's output
feeds the next, errors short-circuit. -/
def chainMiddlewares (mws : List Middleware) (key : TypeKey)
    (acc : Except String Inst) : Except String Inst :=
  mws.foldl
    (fun a m =>
      match a with
      | .error e => .error e
      | .ok x => m key x)
    acc

/-- The middleware loop computes exactly the left fold of the chain. -/
theorem applyMiddlewares_fst (mws : List Middleware) (key : TypeKey) (i : Inst)
    (idx : Nat) :
    (applyMiddlewares mws key i idx).1 = chainMiddlewares mws key (.ok i) := by
  induction mws generalizing i idx with
  | nil => rfl
  | cons m rest ih =>
    simp only [applyMiddlewares, chainMiddlewares, List.foldl_cons]
    cases hm : m key i with
    | error e =>
      simp only [chainMiddlewares] at *
      clear ih
      induction rest with
      | nil => rfl
      | cons m2 r2 ih2 => simpa using ih2
    | ok i2 => simpa [chainMiddlewares] using ih i2 (idx + 1)

/-- When the whole chain succeeds, every middleware fired exactly once, in
list order, numbered consecutively from `idx`. -/
theorem applyMiddlewares_ok_events (mws : List Middleware) (key : TypeKey) :
    ∀ (i : Inst) (idx : Nat) (out : Inst) (evs : List Event),
    applyMiddlewares mws key i idx = (.ok out, evs) →
    evs = (List.range mws.length).map (fun j => Event.middlewareCall (idx + j)) := by
  induction mws with
  | nil =>
    intro i idx out evs h
    simp only [applyMiddlewares, Prod.mk.injEq, Except.ok.injEq] at h
    simp [← h.2]
  | cons m rest ih =>
    intro i idx out evs h
    cases hm : m key i with
    | error e => simp [applyMiddlewares, hm] at h
    | ok i2 =>
      simp only [applyMiddlewares, hm] at h
      cases hr : applyMiddlewares rest key i2 (idx + 1) with
      | mk r revs =>
        rw [hr] at h
        simp only [Prod.mk.injEq] at h
        obtain ⟨h1, h2⟩ := h
        subst h1
        have := ih i2 (idx + 1) out revs hr
        subst this
        rw [← h2]
        simp only [List.length_cons, List.range_succ_eq_map, List.map_cons,
          List.map_map, Nat.add_zero, List.cons.injEq, true_and]
        refine List.map_congr_left ?_
        intro j _
        simp only [Function.comp_apply]
        congr 1
        omega

/-- Every event the middleware loop emits is a middleware event (never a
factory, init, or cleanup event). -/
theorem applyMiddlewares_events_shape (mws : List Middleware) (key : TypeKey) :
    ∀ (i : Inst) (idx : Nat) (ev : Event),
    ev ∈ (applyMiddlewares mws key i idx).2 → ∃ j, ev = Event.middlewareCall j := by
  induction mws with
  | nil => intro i idx ev h; simp [applyMiddlewares] at h
  | cons m rest ih =>
    intro i idx ev h
    cases hm : m key i with
    | error e =>
      simp only [applyMiddlewares, hm, List.mem_singleton] at h
      exact ⟨idx, h⟩
    | ok i2 =>
      simp only [applyMiddlewares, hm] at h
      cases hr : applyMiddlewares rest key i2 (idx + 1) with
      | mk r revs =>
        rw [hr] at h
        simp only [List.mem_cons] at h
        cases h with
        | inl h => exact ⟨idx, h⟩
        | inr h =>
          have := ih i2 (idx + 1) ev
          rw [hr] at this
          exact this h

/-- The wrapped messages of the lifecycle instances whose cleanup fails, in
traversal order. -/
def wrappedCleanupErrs (w : World) (l : List Inst) : List String :=
  l.filterMap (fun i =>
    (w.cleanupErr i).map (fun e => "error during container cleanup: " ++ e))

theorem cleanup_foldl (w : World) :
    ∀ (l : List Inst) (acc : Errors × List Event),
    l.foldl (cleanupStep w) acc =
      (⟨acc.1.errors ++ wrappedCleanupErrs w l⟩,
        acc.2 ++ l.map Event.cleanupCall) := by
  intro l
  induction l with
  | nil => intro acc; simp [wrappedCleanupErrs]
  | cons i rest ih =>
    intro acc
    simp only [List.foldl_cons]
    rw [ih]
    cases hc : w.cleanupErr i with
    | some e =>
      simp [cleanupStep, hc, Errors.add, wrappedCleanupErrs]
    | none =>
      simp [cleanupStep, hc, Errors.add, wrappedCleanupErrs]

/-- A successful singleton fast path returns a cache hit that passed the type
assertion. -/
theorem singletonFastPath_ok (w : World) (st : ContainerState) (key : TypeKey)
    (name : Name) (reg : Registration) (i : Inst)
    (h : singletonFastPath w st key name reg = some (.ok i)) :
    w.implements i.dyn key = true ∧ lookupSingleton st key name = some i := by
  unfold singletonFastPath at h
  split at h
  · cases hl : lookupSingleton st key name with
    | some s =>
      simp only [hl] at h
      by_cases himp : w.implements s.dyn key = true
      · rw [if_pos himp] at h
        simp only [Option.some.injEq, Except.ok.injEq] at h
        subst h
        exact ⟨himp, rfl⟩
      · rw [if_neg himp] at h
        simp at h
    | none =>
      simp only [hl] at h
      exact Option.noConfusion h
  · simp at h

/-- A successful `finishCreate` fully characterizes the tail of `ResolveName`:
both type assertions passed, the middleware chain succeeded, lifecycle init
succeeded, and the final state is the lifecycle state plus (for singletons)
the cache write. -/
theorem finishCreate_ok (w : World) (key : TypeKey) (name : Name)
    (reg : Registration) (st1 : ContainerState) (inst out : Inst)
    (st2 : ContainerState) (ev2 : List Event)
    (h : finishCreate w key name reg st1 inst = (.ok out, st2, ev2)) :
    w.implements inst.dyn key = true ∧
    w.implements out.dyn key = true ∧
    ∃ mev stL lev,
      applyMiddlewares st1.middlewares key inst 0 = (.ok out, mev) ∧
      runLifecycle w out st1 = (.ok (), stL, lev) ∧
      st2 = (if reg.isSingleton then insertSingleton stL key name out else stL) ∧
      ev2 = mev ++ lev := by
  unfold finishCreate at h
  split at h
  · simp at h
  · rename_i hc
    have hc' : w.implements inst.dyn key = true := by simpa using hc
    refine ⟨hc', ?_⟩
    split at h
    · simp at h
    · rename_i mwout mev hmw
      split at h
      · simp at h
      · rename_i u stL lev hlc
        by_cases himp : w.implements mwout.dyn key = true
        · rw [if_pos himp] at h
          simp only [Prod.mk.injEq, Except.ok.injEq] at h
          obtain ⟨h1, h2, h3⟩ := h
          subst h1
          refine ⟨himp, mev, stL, lev, hmw, ?_, h2.symm, h3.symm⟩
          cases u
          exact hlc
        · rw [if_neg himp] at h
          simp at h

theorem finishCreate_services (w : World) (key : TypeKey) (name : Name)
    (reg : Registration) (st1 : ContainerState) (inst : Inst) :
    ((finishCreate w key name reg st1 inst).2.1).services = st1.services := by
  unfold finishCreate
  split
  · rfl
  · split
    · rfl
    · rename_i out mev hmw
      split
      · rename_i e st2 lev hlc
        have h := runLifecycle_services w out st1
        rw [hlc] at h
        exact h
      · rename_i u st2 lev hlc
        have h := runLifecycle_services w out st1
        rw [hlc] at h
        split
        · dsimp only
          split
          · exact (insertSingleton_services st2 key name out).trans h
          · exact (insertSingleton_services st2 key name out).trans h
        · dsimp only
          split <;> exact h

theorem resolveName_services (w : World) (f : Nat) (key : TypeKey) (name : Name)
    (st : ContainerState) :
    ((resolveName w f key name st).2.1).services = st.services := by
  unfold resolveName
  split
  · rfl
  · split
    · rfl
    · rename_i service hsvc
      split
      · rfl
      · split
        · rfl
        · rename_i fc hfc
          split
          · rename_i e st1 ev1 heq
            have h := runFactory_services w f fc st
            rw [heq] at h
            exact h
          · rename_i inst st1 ev1 heq
            have h1 := runFactory_services w f fc st
            rw [heq] at h1
            exact (finishCreate_services w key name service st1 inst).trans h1

/-- A successful `resolveName` of a singleton registration leaves the returned
instance in the singleton cache of the final state, and the instance passed
the type assertion against the requested key. -/
theorem resolveName_ok_singleton_cache (w : World) (f : Nat) (key : TypeKey)
    (name : Name) (st : ContainerState) (maps : List (Name × Registration))
    (reg : Registration) (inst : Inst) (st' : ContainerState) (ev : List Event)
    (hs : lookup2 st.services key = some maps)
    (hr : lookupA maps name = some reg)
    (hsing : reg.isSingleton = true)
    (h1 : resolveName w f key name st = (.ok inst, st', ev)) :
    lookupSingleton st' key name = some inst ∧
      w.implements inst.dyn key = true := by
  unfold resolveName at h1
  rw [hs] at h1
  simp only at h1
  rw [hr] at h1
  simp only at h1
  split at h1
  · rename_i r hfp
    simp only [Prod.mk.injEq] at h1
    obtain ⟨hr1, hst, _⟩ := h1
    subst hr1
    subst hst
    obtain ⟨himp, hcache⟩ := singletonFastPath_ok w _ key name reg inst hfp
    exact ⟨hcache, himp⟩
  · split at h1
    · simp at h1
    · rename_i fc hfc
      split at h1
      · simp at h1
      · rename_i fres st1 ev1 hrf
        cases hfin : finishCreate w key name reg st1 fres with
        | mk r2 p2 =>
          obtain ⟨st2, ev2⟩ := p2
          rw [hfin] at h1
          simp only [Prod.mk.injEq] at h1
          obtain ⟨h1a, h1b, _⟩ := h1
          subst h1a
          subst h1b
          obtain ⟨_, himp, mev, stL, lev, _, _, hst2, _⟩ :=
            finishCreate_ok w key name reg st1 fres inst _ ev2 hfin
          rw [hsing] at hst2
          simp only [if_true] at hst2
          refine ⟨?_, himp⟩
          rw [hst2]
          exact lookupPair_mapSet2_self stL.singletons key name inst

/-! ## Claim C1 -/

/-- C1: for a singleton registration, once a first successful `ResolveName`
for its (type, name) key has stored an instance in the singleton cache, every
subsequent `ResolveName` for that same key returns that identical cached
instance (reference equality), leaves the state unchanged, and — the empty
event trace — does not invoke the factory. -/
theorem claim1_singleton_second_resolve_cached (w : World) (f1 f2 : Nat)
    (key : TypeKey) (name : Name) (st : ContainerState)
    (maps : List (Name × Registration)) (reg : Registration) (inst : Inst)
    (st' : ContainerState) (ev : List Event)
    (hs : lookup2 st.services key = some maps)
    (hr : lookupA maps name = some reg)
    (hsing : reg.isSingleton = true)
    (h1 : resolveName w f1 key name st = (.ok inst, st', ev)) :
    resolveName w f2 key name st' = (.ok inst, st', []) := by
  obtain ⟨hcache, himp⟩ := resolveName_ok_singleton_cache w f1 key name st maps
    reg inst st' ev hs hr hsing h1
  have hpres : st'.services = st.services := by
    have h := resolveName_services w f1 key name st
    rw [h1] at h
    exact h
  have hserv : lookup2 st'.services key = some maps := by rw [hpres]; exact hs
  have hfast : singletonFastPath w st' key name reg = some (.ok inst) := by
    unfold singletonFastPath
    rw [if_pos hsing]
    simp only [hcache]
    rw [if_pos himp]
  unfold resolveName
  simp only [hserv, hr, hfast]

/-- Concrete fixture world: type assertions succeed exactly on equal keys, no
lifecycle management, no failures. -/
def w0 : World where
  implements := fun d k => d == k
  isLifecycle := fun _ => false
  initErr := fun _ => none
  cleanupErr := fun _ => none

/-- A pointer-to-struct type with no fields, key 10. -/
def ty10 : GoTy := ⟨10, false, true, true, [], 10⟩

/-- The registration `Register` builds for `ty10` with `AsSingleton()`. -/
def regSing : Registration :=
  { name := "", isSingleton := true, factory := some (.defaultFac ty10),
    interfaces := [] }

/-- Container after `Register[ty10](c, AsSingleton())`. -/
def stSing : ContainerState := (register newServiceContainer ty10 [.asSingleton]).2

/-- The container state after the first resolution of the singleton. -/
def stS1 : ContainerState :=
  { stSing with singletons := [(10, [("", ⟨1, 10⟩)])], nextId := 2 }

theorem claim1_witness :
    resolveName w0 2 10 "" stS1 = (.ok ⟨1, 10⟩, stS1, []) :=
  claim1_singleton_second_resolve_cached w0 5 2 10 "" stSing [("", regSing)]
    regSing ⟨1, 10⟩ stS1 [.factoryCall] (by rfl) (by rfl) (by rfl) (by rfl)

/-! ## Claim C4 -/

/-- C4: container `Cleanup` invokes `Cleanup` on every tracked lifecycle
instance in exact reverse order of appending (the event trace is the reversed
tracker, so no failure short-circuits the loop), returns all collected cleanup
errors joined into one error, and returns nil exactly when no cleanup
failed. -/
theorem claim4_cleanup_reverse_order_collects_errors (w : World)
    (st : ContainerState) :
    (cleanup w st).2 = st.lifecycles.reverse.map Event.cleanupCall ∧
    (cleanup w st).1 = Errors.joined ⟨wrappedCleanupErrs w st.lifecycles.reverse⟩ ∧
    ((cleanup w st).1 = none ↔ ∀ i ∈ st.lifecycles, w.cleanupErr i = none) := by
  have hfold := cleanup_foldl w st.lifecycles.reverse (⟨[]⟩, [])
  unfold cleanup
  rw [hfold]
  simp only [List.nil_append]
  refine ⟨trivial, trivial, ?_⟩
  unfold Errors.joined
  constructor
  · intro h
    split at h
    · rename_i hemp
      simp only [List.isEmpty_iff] at hemp
      intro i hi
      unfold wrappedCleanupErrs at hemp
      rw [List.filterMap_eq_nil_iff] at hemp
      have := hemp i (List.mem_reverse.mpr hi)
      simpa using this
    · simp at h
  · intro h
    have hnil : wrappedCleanupErrs w st.lifecycles.reverse = [] := by
      unfold wrappedCleanupErrs
      rw [List.filterMap_eq_nil_iff]
      intro i hi
      rw [h i (List.mem_reverse.mp hi)]
      rfl
    simp [hnil]

/-! ## Claim C6 -/

theorem runLifecycle_events (w : World) (i : Inst) (st : ContainerState) :
    (runLifecycle w i st).2.2 = [] ∨
      (runLifecycle w i st).2.2 = [Event.initCall i] := by
  unfold runLifecycle
  split
  · split
    · exact Or.inr rfl
    · exact Or.inr rfl
  · exact Or.inl rfl

/-- Under a passing type assertion and a failing middleware chain,
`finishCreate` reports the wrapped middleware error with the post-factory
state unchanged. -/
theorem finishCreate_mw_error (w : World) (key : TypeKey) (name : Name)
    (reg : Registration) (st1 : ContainerState) (inst : Inst) (e : String)
    (mev : List Event)
    (hcast : w.implements inst.dyn key = true)
    (hmw : applyMiddlewares st1.middlewares key inst 0 = (.error e, mev)) :
    finishCreate w key name reg st1 inst =
      (.error ("failed to process middleware during singleton creator: " ++ e),
        st1, mev) := by
  unfold finishCreate
  rw [hcast]
  simp only [Bool.not_true, Bool.false_eq_true, if_false, hmw]

/-- Under a passing type assertion and a successful middleware chain,
`finishCreate` proceeds to the lifecycle tail. -/
theorem finishCreate_mw_ok (w : World) (key : TypeKey) (name : Name)
    (reg : Registration) (st1 : ContainerState) (inst out : Inst)
    (mev : List Event)
    (hcast : w.implements inst.dyn key = true)
    (hmw : applyMiddlewares st1.middlewares key inst 0 = (.ok out, mev)) :
    ∃ r2 st2 lev,
      finishCreate w key name reg st1 inst = (r2, st2, mev ++ lev) ∧
      ((runLifecycle w out st1).2.2 = lev) := by
  unfold finishCreate
  rw [hcast]
  simp only [Bool.not_true, Bool.false_eq_true, if_false, hmw]
  rcases hlr : runLifecycle w out st1 with ⟨lr, stL, lev⟩
  cases lr with
  | error e2 => exact ⟨.error e2, stL, lev, by simp, rfl⟩
  | ok u =>
    cases u
    by_cases himp : w.implements out.dyn key = true
    · refine ⟨.ok out,
        if reg.isSingleton = true then insertSingleton stL key name out else stL,
        lev, ?_, rfl⟩
      simp [himp]
    · refine ⟨.error "panic: interface conversion on middleware result",
        if reg.isSingleton = true then insertSingleton stL key name out else stL,
        lev, ?_, rfl⟩
      simp [himp]

/-- C6: on every resolution that is not served from the singleton cache, the
middleware chain is applied to the freshly created instance exactly once, in
registration order (consecutive indices 0..N-1), each middleware output
feeding the next (the left fold `chainMiddlewares`); and if any middleware
fails, the resolution fails with the wrapped error, the post-factory state is
returned unchanged (so no lifecycle append), and no lifecycle init event was
emitted after the factory segment. -/
theorem claim6_middleware_chain_order_once (w : World) (f : Nat) (key : TypeKey)
    (name : Name) (st : ContainerState) (maps : List (Name × Registration))
    (reg : Registration) (fc : FactoryCode) (inst : Inst)
    (st1 : ContainerState) (ev1 : List Event)
    (hs : lookup2 st.services key = some maps)
    (hr : lookupA maps name = some reg)
    (hfast : singletonFastPath w st key name reg = none)
    (hfc : reg.factory = some fc)
    (hrun : runFactory w f fc st = (.ok inst, st1, ev1))
    (hcast : w.implements inst.dyn key = true) :
    (∀ out mev, applyMiddlewares st1.middlewares key inst 0 = (.ok out, mev) →
      mev = (List.range st1.middlewares.length).map Event.middlewareCall ∧
      Except.ok out = chainMiddlewares st1.middlewares key (Except.ok inst) ∧
      ∃ r2 st2 lev,
        resolveName w f key name st =
          (r2, st2, Event.factoryCall :: ev1 ++ mev ++ lev) ∧
        ∀ j, Event.middlewareCall j ∉ lev) ∧
    (∀ e mev, applyMiddlewares st1.middlewares key inst 0 = (.error e, mev) →
      resolveName w f key name st =
        (.error ("failed to process middleware during singleton creator: " ++ e),
          st1, Event.factoryCall :: ev1 ++ mev) ∧
      ∀ i, Event.initCall i ∉ mev) := by
  have hres : resolveName w f key name st =
      ((finishCreate w key name reg st1 inst).1,
        (finishCreate w key name reg st1 inst).2.1,
        Event.factoryCall :: ev1 ++ (finishCreate w key name reg st1 inst).2.2) := by
    unfold resolveName
    simp only [hs, hr, hfast, hfc, hrun]
  constructor
  · intro out mev hmw
    refine ⟨?_, ?_, ?_⟩
    · have h := applyMiddlewares_ok_events st1.middlewares key inst 0 out mev hmw
      simpa using h
    · have h := applyMiddlewares_fst st1.middlewares key inst 0
      rw [hmw] at h
      exact h
    · obtain ⟨r2, st2, lev, hfin, hlev⟩ :=
        finishCreate_mw_ok w key name reg st1 inst out mev hcast hmw
      refine ⟨r2, st2, lev, ?_, ?_⟩
      · rw [hres, hfin]
        simp [List.append_assoc]
      · intro j hj
        rcases runLifecycle_events w out st1 with hle | hle <;> rw [hle] at hlev
        · rw [← hlev] at hj
          simp at hj
        · rw [← hlev] at hj
          simp at hj
  · intro e mev hmw
    constructor
    · rw [hres, finishCreate_mw_error w key name reg st1 inst e mev hcast hmw]
    · intro i hi
      obtain ⟨j, hj⟩ := applyMiddlewares_events_shape st1.middlewares key inst 0
        (Event.initCall i) (by rw [hmw]; exact hi)
      exact Event.noConfusion hj

/-! ## Claim C5 -/

/-- Under a passing assertion, successful middleware chain, and failing
lifecycle `Init`, `finishCreate` returns the init error with the post-factory
state completely unchanged: no cache write and no lifecycle append. -/
theorem finishCreate_init_error (w : World) (key : TypeKey) (name : Name)
    (reg : Registration) (st1 : ContainerState) (inst out : Inst)
    (mev : List Event) (e2 : String)
    (hcast : w.implements inst.dyn key = true)
    (hmw : applyMiddlewares st1.middlewares key inst 0 = (.ok out, mev))
    (hlc : w.isLifecycle out.dyn = true)
    (hie : w.initErr out = some e2) :
    finishCreate w key name reg st1 inst =
      (.error e2, st1, mev ++ [.initCall out]) := by
  unfold finishCreate
  rw [hcast]
  simp only [Bool.not_true, Bool.false_eq_true, if_false, hmw]
  simp [runLifecycle, hlc, hie]

/-- C5: when the factory, a middleware, or lifecycle `Init` fails during a
resolution, `ResolveName` returns an error and records no partial state of its
own: the singleton cache entry for the resolved (type, name) key in the final
state equals the entry before the call (given, via `hkeep`, that the factory
invocation's nested resolutions did not write that same entry — automatic for
every non-reentrant factory), and on a failed `Init` the final state is the
post-factory state itself, so the instance is not appended to the lifecycle
tracker and nothing is cached. -/
theorem claim5_failed_resolution_records_no_partial_state (w : World) (f : Nat)
    (key : TypeKey) (name : Name) (st : ContainerState)
    (maps : List (Name × Registration)) (reg : Registration) (fc : FactoryCode)
    (fres : Except String Inst) (st1 : ContainerState) (ev1 : List Event)
    (hs : lookup2 st.services key = some maps)
    (hr : lookupA maps name = some reg)
    (hfast : singletonFastPath w st key name reg = none)
    (hfc : reg.factory = some fc)
    (hrun : runFactory w f fc st = (fres, st1, ev1))
    (hkeep : lookupSingleton st1 key name = lookupSingleton st key name) :
    (∀ e, fres = .error e →
      resolveName w f key name st = (.error e, st1, Event.factoryCall :: ev1) ∧
      lookupSingleton (resolveName w f key name st).2.1 key name =
        lookupSingleton st key name) ∧
    (∀ i e mev, fres = .ok i → w.implements i.dyn key = true →
      applyMiddlewares st1.middlewares key i 0 = (.error e, mev) →
      resolveName w f key name st =
        (.error ("failed to process middleware during singleton creator: " ++ e),
          st1, Event.factoryCall :: ev1 ++ mev) ∧
      lookupSingleton (resolveName w f key name st).2.1 key name =
        lookupSingleton st key name ∧
      (resolveName w f key name st).2.1.lifecycles = st1.lifecycles) ∧
    (∀ i out mev e2, fres = .ok i → w.implements i.dyn key = true →
      applyMiddlewares st1.middlewares key i 0 = (.ok out, mev) →
      w.isLifecycle out.dyn = true → w.initErr out = some e2 →
      resolveName w f key name st =
        (.error e2, st1, Event.factoryCall :: ev1 ++ (mev ++ [.initCall out])) ∧
      lookupSingleton (resolveName w f key name st).2.1 key name =
        lookupSingleton st key name ∧
      (resolveName w f key name st).2.1.lifecycles = st1.lifecycles) := by
  refine ⟨?_, ?_, ?_⟩
  · intro e he
    subst he
    have hres : resolveName w f key name st =
        (.error e, st1, Event.factoryCall :: ev1) := by
      unfold resolveName
      simp only [hs, hr, hfast, hfc, hrun]
    rw [hres]
    exact ⟨rfl, hkeep⟩
  · intro i e mev hok hcast hmw
    subst hok
    have hres : resolveName w f key name st =
        ((finishCreate w key name reg st1 i).1,
          (finishCreate w key name reg st1 i).2.1,
          Event.factoryCall :: ev1 ++ (finishCreate w key name reg st1 i).2.2) := by
      unfold resolveName
      simp only [hs, hr, hfast, hfc, hrun]
    rw [hres, finishCreate_mw_error w key name reg st1 i e mev hcast hmw]
    exact ⟨rfl, hkeep, rfl⟩
  · intro i out mev e2 hok hcast hmw hlc hie
    subst hok
    have hres : resolveName w f key name st =
        ((finishCreate w key name reg st1 i).1,
          (finishCreate w key name reg st1 i).2.1,
          Event.factoryCall :: ev1 ++ (finishCreate w key name reg st1 i).2.2) := by
      unfold resolveName
      simp only [hs, hr, hfast, hfc, hrun]
    rw [hres,
      finishCreate_init_error w key name reg st1 i out mev e2 hcast hmw hlc hie]
    exact ⟨rfl, hkeep, rfl⟩

/-- Container after `Register[ty10](c, AsFactory(failing factory))`. -/
def stFail : ContainerState :=
  (register newServiceContainer ty10 [.asFactory (.failure "boom")]).2

/-- The registration stored for the failing-factory service. -/
def regFail : Registration :=
  { name := "", isSingleton := false, factory := some (.failure "boom"),
    interfaces := [] }

theorem claim5_witness :
    resolveName w0 3 10 "" stFail = (.error "boom", stFail, [Event.factoryCall]) ∧
      lookupSingleton (resolveName w0 3 10 "" stFail).2.1 10 "" =
        lookupSingleton stFail 10 "" :=
  (claim5_failed_resolution_records_no_partial_state w0 3 10 "" stFail
    [("", regFail)] regFail (.failure "boom") (.error "boom") stFail []
    (by rfl) (by rfl) (by rfl) (by rfl) (by rfl) (by rfl)).1 "boom" rfl

/-- A middleware that passes the instance through unchanged. -/
def mwOk : Middleware := fun _ i => .ok i

/-- The transient registration stored for `ty10`. -/
def regT : Registration :=
  { name := "", isSingleton := false, factory := some (.defaultFac ty10),
    interfaces := [] }

/-- Container with `ty10` registered transiently and one middleware added. -/
def stM6 : ContainerState :=
  { (register newServiceContainer ty10 []).2 with middlewares := [mwOk] }

/-- `stM6` after the factory allocated instance 1. -/
def stM6f : ContainerState := { stM6 with nextId := 2 }

theorem claim6_witness :
    [Event.middlewareCall 0] =
        (List.range stM6f.middlewares.length).map Event.middlewareCall ∧
      Except.ok (⟨1, 10⟩ : Inst) =
        chainMiddlewares stM6f.middlewares 10 (Except.ok ⟨1, 10⟩) ∧
      ∃ r2 st2 lev,
        resolveName w0 3 10 "" stM6 =
          (r2, st2, Event.factoryCall :: [] ++ [Event.middlewareCall 0] ++ lev) ∧
        ∀ j, Event.middlewareCall j ∉ lev :=
  (claim6_middleware_chain_order_once w0 3 10 "" stM6 [("", regT)] regT
    (.defaultFac ty10) ⟨1, 10⟩ stM6f [] (by rfl) (by rfl) (by rfl) (by rfl)
    (by rfl) (by rfl)).1 ⟨1, 10⟩ [Event.middlewareCall 0] (by rfl)

/-! ## Claim C7 -/

theorem insertNames_or (reg : Registration) (iface : TypeKey) :
    ∀ (names : List Name) (st : ContainerState) (k : TypeKey) (n : Name),
    lookupPair (insertNames reg iface names st).services k n = some reg ∨
      lookupPair (insertNames reg iface names st).services k n =
        lookupPair st.services k n := by
  intro names
  induction names with
  | nil => intro st k n; exact Or.inr rfl
  | cons nm rest ih =>
    intro st k n
    unfold insertNames
    simp only [List.foldl_cons]
    have step := ih { st with services := mapSet2 st.services iface nm reg } k n
    unfold insertNames at step
    rcases step with h | h
    · exact Or.inl h
    · rw [h]
      simpa using lookupPair_mapSet2_or st.services iface k nm n reg

theorem insertNames_mem (reg : Registration) (iface : TypeKey) :
    ∀ (names : List Name) (st : ContainerState) (n : Name), n ∈ names →
    lookupPair (insertNames reg iface names st).services iface n = some reg := by
  intro names
  induction names with
  | nil => intro st n h; simp at h
  | cons nm rest ih =>
    intro st n h
    unfold insertNames
    simp only [List.foldl_cons]
    rcases List.mem_cons.mp h with h1 | h1
    · subst h1
      have step := insertNames_or reg iface rest
        { st with services := mapSet2 st.services iface n reg } iface n
      unfold insertNames at step
      rcases step with h2 | h2
      · exact h2
      · rw [h2]
        simpa using lookupPair_mapSet2_self st.services iface n reg
    · have := ih { st with services := mapSet2 st.services iface nm reg } n h1
      unfold insertNames at this
      exact this

theorem insertInterfaces_or (reg : Registration) :
    ∀ (l : List (TypeKey × List Name)) (st : ContainerState) (k : TypeKey)
      (n : Name),
    lookupPair (l.foldl (fun acc p => insertNames reg p.1 p.2 acc) st).services
        k n = some reg ∨
      lookupPair (l.foldl (fun acc p => insertNames reg p.1 p.2 acc) st).services
        k n = lookupPair st.services k n := by
  intro l
  induction l with
  | nil => intro st k n; exact Or.inr rfl
  | cons p rest ih =>
    intro st k n
    simp only [List.foldl_cons]
    rcases ih (insertNames reg p.1 p.2 st) k n with h | h
    · exact Or.inl h
    · rw [h]
      exact insertNames_or reg p.1 p.2 st k n

theorem insertInterfaces_mem (reg : Registration) :
    ∀ (l : List (TypeKey × List Name)) (st : ContainerState) (iface : TypeKey)
      (names : List Name) (n : Name), (iface, names) ∈ l → n ∈ names →
    lookupPair (l.foldl (fun acc p => insertNames reg p.1 p.2 acc) st).services
        iface n = some reg := by
  intro l
  induction l with
  | nil => intro st iface names n h _; simp at h
  | cons p rest ih =>
    intro st iface names n h hn
    simp only [List.foldl_cons]
    rcases List.mem_cons.mp h with h1 | h1
    · subst h1
      rcases insertInterfaces_or reg rest (insertNames reg iface names st)
          iface n with h2 | h2
      · exact h2
      · rw [h2]
        exact insertNames_mem reg iface names st n hn
    · exact ih (insertNames reg p.1 p.2 st) iface names n h1 hn

/-- Every instance a successful `ResolveName` returns passed the type
assertion against the requested key: resolving by a capability type yields an
instance satisfying that capability. -/
theorem resolveName_ok_implements (w : World) (f : Nat) (key : TypeKey)
    (name : Name) (st : ContainerState) (i : Inst) (st' : ContainerState)
    (ev : List Event)
    (h : resolveName w f key name st = (.ok i, st', ev)) :
    w.implements i.dyn key = true := by
  unfold resolveName at h
  split at h
  · simp at h
  · split at h
    · simp at h
    · rename_i reg hreg
      split at h
      · rename_i r hfp
        simp only [Prod.mk.injEq] at h
        obtain ⟨h1, _, _⟩ := h
        subst h1
        exact (singletonFastPath_ok w st key name reg i hfp).1
      · split at h
        · simp at h
        · rename_i fc hfc
          split at h
          · simp at h
          · rename_i inst st1 ev1 heq
            simp only [Prod.mk.injEq] at h
            obtain ⟨h1, _, _⟩ := h
            rcases hfin : finishCreate w key name reg st1 inst with ⟨r2, st2, ev2⟩
            rw [hfin] at h1
            subst h1
            exact (finishCreate_ok w key name reg st1 inst i st2 ev2 hfin).2.1

/-- C7: a registration built with capability mappings registers without error;
the same registration value becomes resolvable under the concrete type key at
the (default, empty) registration name and under every declared capability
(type, name) pair; and any successful `resolveName` — in particular by a
capability type — returns an instance satisfying the requested type. -/
theorem claim7_capability_mappings_resolvable (w : World) (st : ContainerState)
    (ty : GoTy) (opts : List RegOption) (reg : Registration)
    (h : buildRegistration st ty opts = .ok reg) :
    (register st ty opts).1 = none ∧
    lookupPair ((register st ty opts).2).services ty.key reg.name = some reg ∧
    (∀ iface names n, (iface, names) ∈ reg.interfaces → n ∈ names →
      lookupPair ((register st ty opts).2).services iface n = some reg) ∧
    (∀ f k2 n2 i st2 ev,
      resolveName w f k2 n2 (register st ty opts).2 = (.ok i, st2, ev) →
      w.implements i.dyn k2 = true) := by
  have hreg : register st ty opts =
      (none, insertInterfaces reg
        { st with services := mapSet2 st.services ty.key reg.name reg }) := by
    unfold register
    simp only [h]
  refine ⟨by rw [hreg], ?_, ?_, ?_⟩
  · rw [hreg]
    unfold insertInterfaces
    rcases insertInterfaces_or reg reg.interfaces
        { st with services := mapSet2 st.services ty.key reg.name reg }
        ty.key reg.name with h2 | h2
    · exact h2
    · rw [h2]
      exact lookupPair_mapSet2_self st.services ty.key reg.name reg
  · intro iface names n hmem hn
    rw [hreg]
    unfold insertInterfaces
    exact insertInterfaces_mem reg reg.interfaces _ iface names n hmem hn
  · intro f k2 n2 i st2 ev hres
    exact resolveName_ok_implements w f k2 n2 _ i st2 ev hres

/-- A world in which dynamic type 20 additionally implements capability 30. -/
def w7 : World where
  implements := fun d k => d == k || (d == 20 && k == 30)
  isLifecycle := fun _ => false
  initErr := fun _ => none
  cleanupErr := fun _ => none

/-- A pointer-to-struct type with key 20. -/
def ty20 : GoTy := ⟨20, false, true, true, [], 20⟩

/-- `With[30]()` followed by `WithName[30]("x")`. -/
def opts7 : List RegOption := [.withCap 30, .withNamedCap 30 "x"]

/-- The registration `Register` builds for `ty20` with `opts7`. -/
def reg7 : Registration :=
  { name := "", isSingleton := false, factory := some (.defaultFac ty20),
    interfaces := [(30, ["", "x"])] }

theorem claim7_witness :
    (register newServiceContainer ty20 opts7).1 = none ∧
    lookupPair ((register newServiceContainer ty20 opts7).2).services 20 "" =
      some reg7 ∧
    lookupPair ((register newServiceContainer ty20 opts7).2).services 30 "x" =
      some reg7 ∧
    w7.implements (⟨1, 20⟩ : Inst).dyn 30 = true := by
  have C := claim7_capability_mappings_resolvable w7 newServiceContainer ty20
    opts7 reg7 (by rfl)
  refine ⟨C.1, C.2.1, C.2.2.1 30 ["", "x"] "x" (by simp [reg7]) (by simp), ?_⟩
  exact C.2.2.2 3 30 "x" ⟨1, 20⟩
    (resolveName w7 3 30 "x" (register newServiceContainer ty20 opts7).2).2.1
    (resolveName w7 3 30 "x" (register newServiceContainer ty20 opts7).2).2.2
    (by rfl)

/-! ## Claim C2 -/

theorem runFactory_ok_exec (w : World) (f : Nat) (fc : FactoryCode)
    (st : ContainerState) (i : Inst) (st1 : ContainerState) (ev : List Event)
    (h : runFactory w f fc st = (.ok i, st1, ev)) :
    exec w f (.runFac fc) st = (.ok (some i), st1, ev) := by
  unfold runFactory at h
  split at h
  · rename_i i0 st0 ev0 heq
    simp only [Prod.mk.injEq, Except.ok.injEq] at h
    obtain ⟨h1, h2, h3⟩ := h
    subst h1; subst h2; subst h3
    exact heq
  · simp at h
  · simp at h

/-- `ResolveByType` on a singleton cache hit: the cached instance is returned
with no factory call and no state change. -/
theorem exec_byType_cached (w : World) (f : Nat) (t : TypeKey)
    (st : ContainerState) (maps : List (Name × Registration))
    (reg : Registration) (s : Inst)
    (hs : lookup2 st.services t = some maps)
    (hr : lookupA maps "" = some reg)
    (hsing : reg.isSingleton = true)
    (hcached : lookupPair st.singletons t "" = some s) :
    exec w (f + 1) (.byType t) st = (.ok (some s), st, []) := by
  simp only [exec, hs, hr, hsing, if_true, hcached]

/-- `ResolveByType` on a cache miss: the factory result is passed through
directly — no middleware, no lifecycle, and no singleton-cache write beyond
the factory call's own effects. -/
theorem exec_byType_miss (w : World) (f : Nat) (t : TypeKey)
    (st : ContainerState) (maps : List (Name × Registration))
    (reg : Registration) (fc : FactoryCode) (i : Inst) (st1 : ContainerState)
    (ev1 : List Event)
    (hs : lookup2 st.services t = some maps)
    (hr : lookupA maps "" = some reg)
    (hmiss : (if reg.isSingleton = true then lookupPair st.singletons t ""
      else none) = none)
    (hfc : reg.factory = some fc)
    (hex : exec w f (.runFac fc) st = (.ok (some i), st1, ev1)) :
    exec w (f + 1) (.byType t) st = (.ok (some i), st1, .factoryCall :: ev1) := by
  simp only [exec, hs, hr, hmiss, hfc, hex]

/-- C2 counterexample fixtures: the singleton container with one instance-
renumbering middleware in the chain. -/
def mwAdd : Middleware := fun _ i => .ok ⟨i.id + 100, i.dyn⟩

/-- `stSing` with the middleware `mwAdd` added. -/
def stM2 : ContainerState := { stSing with middlewares := [mwAdd] }

/-- A settable struct field of type 10 carrying the bare `inject` tag. -/
def fld0 : FieldSpec := ⟨"Dep", 10, "inject", true⟩

/-- C2 is false as stated: processing a bare-`inject` field is NOT equivalent
to a top-level `ResolveName` of the field type with the empty name.  On the
same start state, field processing returns the raw factory result `⟨1,10⟩`
(middleware not applied) and stores nothing in the singleton cache, while
`ResolveName` returns the middleware-transformed `⟨101,10⟩` and caches it. -/
theorem claim2_counterexample :
    (processField w0 3 fld0 "inject" stM2).1 = .ok ⟨1, 10⟩ ∧
    (resolveName w0 3 10 "" stM2).1 = .ok ⟨101, 10⟩ ∧
    lookupSingleton (processField w0 3 fld0 "inject" stM2).2.1 10 "" = none ∧
    lookupSingleton (resolveName w0 3 10 "" stM2).2.1 10 "" = some ⟨101, 10⟩ :=
  ⟨rfl, rfl, rfl, rfl⟩

/-- C2 amended: processing a field carrying a bare `inject` marker (any tag
the inject processor accepts that parses to an empty service name) dispatches
to `ResolveByType`, which serves a cached singleton when present (with no
factory call, no state change, no events) and otherwise passes the factory
result through unchanged — applying no middleware, running no lifecycle init,
and writing no singleton-cache entry of its own — unlike `ResolveName`. -/
theorem claim2_amended_bare_inject_is_resolveByType (w : World) (f : Nat)
    (fld : FieldSpec) (v : String) (st : ContainerState)
    (maps : List (Name × Registration)) (reg : Registration)
    (hp : st.processors = [.injectProc])
    (hcan : Processor.canProcess .injectProc v = true)
    (hv : parseServiceName v = "")
    (hs : lookup2 st.services fld.ftype = some maps)
    (hr : lookupA maps "" = some reg) :
    (∀ s, reg.isSingleton = true → lookupSingleton st fld.ftype "" = some s →
      processField w (f + 2) fld v st = (.ok s, st, [])) ∧
    (∀ fc i st1 ev1,
      (if reg.isSingleton = true then lookupSingleton st fld.ftype ""
        else none) = none →
      reg.factory = some fc →
      runFactory w f fc st = (.ok i, st1, ev1) →
      processField w (f + 2) fld v st = (.ok i, st1, .factoryCall :: ev1)) := by
  constructor
  · intro s hsing hcached
    have hc : lookupPair st.singletons fld.ftype "" = some s := hcached
    unfold processField
    simp only [exec, hp, List.find?, hcan, hv, bne_self_eq_false,
      Bool.false_eq_true, if_false, hs, hr, hsing, if_true, hc]
  · intro fc i st1 ev1 hmiss hfc hrun
    have hm : (if reg.isSingleton = true then lookupPair st.singletons
        fld.ftype "" else none) = none := hmiss
    have hex := runFactory_ok_exec w f fc st i st1 ev1 hrun
    unfold processField
    simp only [exec, hp, List.find?, hcan, hv, bne_self_eq_false,
      Bool.false_eq_true, if_false, hs, hr, hm, hfc, hex]

theorem claim2_amended_witness :
    processField w0 3 fld0 "inject" stSing =
      (.ok ⟨1, 10⟩, { stSing with nextId := 2 }, [Event.factoryCall]) :=
  (claim2_amended_bare_inject_is_resolveByType w0 1 fld0 "inject" stSing
    [("", regSing)] regSing (by rfl) (by rfl) (by rfl) (by rfl) (by rfl)).2
    (.defaultFac ty10) ⟨1, 10⟩ { stSing with nextId := 2 } [] (by rfl) (by rfl)
    (by rfl)

/-! ## Claim C3 -/

/-- A struct type (key 50) whose single settable field carries the fabric tag
`custom`, for which no processor is registered. -/
def tyCustom : GoTy := ⟨50, false, false, true, [⟨"F", 10, "custom", true⟩], 50⟩

/-- C3 is false as stated: `tyCustom` declares a fabric-tagged field whose tag
has no registered processor in a fresh container, yet `Register` (without an
explicit factory) succeeds, because `hasFabricTags` only triggers validation
when some field's tag is exactly the bare lowercase `inject`. -/
theorem claim3_counterexample :
    (register newServiceContainer tyCustom []).1 = none ∧
    tyCustom.fields.any (fun f => f.tag != "") = true ∧
    hasProcessorFor newServiceContainer "custom" = false :=
  ⟨rfl, rfl, rfl⟩

/-- C3 amended: when registration synthesizes a factory (no factory option)
and some field's fabric tag is exactly the bare `inject` (that is,
`hasFabricTags` holds), then if any field declares a non-empty tag with no
registered processor, `Register` fails with the configuration error naming
the first such tag and field, and the container is unchanged — so the invalid
tag is never reached at resolution time. -/
theorem claim3_amended_validation_needs_bare_inject (st : ContainerState)
    (ty : GoTy) (opts : List RegOption) (o : Registration) (fld : FieldSpec)
    (hopts : applyOpts defaultRegistrationOptions opts = .ok o)
    (hnof : o.factory = none)
    (htags : hasFabricTags ty = true)
    (hbad : ty.fields.find?
      (fun f => f.tag != "" && !(hasProcessorFor st f.tag)) = some fld) :
    register st ty opts =
      (some ("failed to validate fabric tags: " ++
        ("no processor registered for fabric tag '" ++ fld.tag ++
          "' on field '" ++ fld.fname ++ "'")), st) := by
  have hbs : ty.baseIsStruct = true := by
    unfold hasFabricTags at htags
    split at htags
    · exact absurd htags (by simp)
    · split at htags
      · exact absurd htags (by simp)
      · rename_i h2
        simpa using h2
  have hval : validateFabricTags st ty =
      (false, some ("no processor registered for fabric tag '" ++ fld.tag ++
        "' on field '" ++ fld.fname ++ "'")) := by
    unfold validateFabricTags
    rw [if_pos hbs, hbad]
  unfold register buildRegistration synthFactory
  simp only [hopts, hnof, htags, if_true, hval]

/-- A struct type with one bare-`inject` field and one `custom`-tagged field. -/
def tyMix : GoTy :=
  ⟨51, false, false, true,
    [⟨"A", 10, "inject", true⟩, ⟨"B", 11, "custom", true⟩], 51⟩

theorem claim3_witness :
    register newServiceContainer tyMix [] =
      (some "failed to validate fabric tags: no processor registered for fabric tag 'custom' on field 'B'",
        newServiceContainer) :=
  claim3_amended_validation_needs_bare_inject newServiceContainer tyMix []
    defaultRegistrationOptions ⟨"B", 11, "custom", true⟩ (by rfl) (by rfl)
    (by rfl) (by rfl)

/-! ## Claim C9 -/

/-- A struct type whose single field is tagged `INJECT` (upper case). -/
def tyINJ : GoTy := ⟨52, false, false, true, [⟨"F", 10, "INJECT", true⟩], 52⟩

/-- A struct type whose single field is tagged `inject:db` (named form). -/
def tyNamed : GoTy :=
  ⟨53, false, false, true, [⟨"F", 10, "inject:db", true⟩], 53⟩

/-- C9 is false as stated: the resolution-time dispatcher (`CanProcess`)
accepts `INJECT` and `inject:db`, but the registration-time detection
(`hasFabricTags`) recognizes neither — it compares the tag case-sensitively
against the bare `inject` only. -/
theorem claim9_counterexample :
    Processor.canProcess .injectProc "INJECT" = true ∧
    hasFabricTags tyINJ = false ∧
    Processor.canProcess .injectProc "inject:db" = true ∧
    hasFabricTags tyNamed = false :=
  ⟨rfl, rfl, rfl, rfl⟩

/-- C9 amended: only the dispatch side is case-insensitive.  `CanProcess`
depends on the tag only through its lower-cased code points (so any letter
case of `inject` or `inject:<name>` is accepted), while registration-time
detection fires exactly when some declared field's tag is literally the
lowercase bare `inject`. -/
theorem claim9_amended_dispatch_insensitive_detection_exact :
    (∀ v u : String, lowerStr v = lowerStr u →
      Processor.canProcess .injectProc v = Processor.canProcess .injectProc u) ∧
    Processor.canProcess .injectProc "INJECT" = true ∧
    Processor.canProcess .injectProc "Inject:db" = true ∧
    (∀ (k nd : TypeKey) (fs : List FieldSpec),
      hasFabricTags ⟨k, false, false, true, fs, nd⟩ = true ↔
        ∃ f ∈ fs, f.tag = "inject") := by
  refine ⟨?_, rfl, rfl, ?_⟩
  · intro v u h
    simp only [Processor.canProcess, equalFold]
    rw [h]
  · intro k nd fs
    simp [hasFabricTags, List.any_eq_true]

theorem claim9_witness :
    Processor.canProcess .injectProc "INJECT" =
      Processor.canProcess .injectProc "inject" :=
  claim9_amended_dispatch_insensitive_detection_exact.1 "INJECT" "inject"
    (by rfl)

/-! ## Claim C8 -/

/-- A pointer-to-struct type with key 40. -/
def ty40 : GoTy := ⟨40, false, true, true, [], 40⟩

/-- Container after `Register[ty40](c, WithInstance(inst 999))` — no singleton
flag. -/
def stWI : ContainerState :=
  (register newServiceContainer ty40 [.withInstance ⟨999, 40⟩]).2

/-- C8 is false as stated: with a `WithInstance` registration and no singleton
flag, two successive `Resolve` calls return the identical pre-created
instance `⟨999,40⟩`, not distinct instances. -/
theorem claim8_counterexample :
    (resolveName w0 3 40 "" stWI).1 = .ok ⟨999, 40⟩ ∧
    (resolveName w0 3 40 "" ((resolveName w0 3 40 "" stWI).2.1)).1 =
      .ok ⟨999, 40⟩ :=
  ⟨rfl, rfl⟩

/-- C8 amended: a registration without the singleton flag is never served
from the cache — every resolution invokes the factory (the trace starts with
a factory call).  For a factory that allocates a fresh value (the
default-synthesized pointer-to-struct factory behaves like `.fresh`),
successive resolutions return distinct instances; but a `WithInstance`
registration returns the identical pre-created instance on every call, with
the container state unchanged. -/
theorem claim8_amended_transient_semantics (w : World) (f : Nat) (key : TypeKey)
    (name : Name) (st : ContainerState) (maps : List (Name × Registration))
    (reg : Registration)
    (hs : lookup2 st.services key = some maps)
    (hr : lookupA maps name = some reg)
    (hns : reg.isSingleton = false) :
    (∀ fc, reg.factory = some fc →
      ∃ tail, (resolveName w f key name st).2.2 = Event.factoryCall :: tail) ∧
    (∀ i0, reg.factory = some (.constInst i0) → st.middlewares = [] →
      w.implements i0.dyn key = true → w.isLifecycle i0.dyn = false →
      resolveName w (f + 1) key name st = (.ok i0, st, [Event.factoryCall])) ∧
    (∀ dyn, reg.factory = some (.fresh dyn) → st.middlewares = [] →
      w.implements dyn key = true → w.isLifecycle dyn = false →
      resolveName w (f + 1) key name st =
        (.ok ⟨st.nextId, dyn⟩, { st with nextId := st.nextId + 1 },
          [Event.factoryCall]) ∧
      resolveName w (f + 1) key name { st with nextId := st.nextId + 1 } =
        (.ok ⟨st.nextId + 1, dyn⟩, { st with nextId := st.nextId + 2 },
          [Event.factoryCall]) ∧
      (⟨st.nextId, dyn⟩ : Inst) ≠ ⟨st.nextId + 1, dyn⟩) := by
  have hfp : singletonFastPath w st key name reg = none := by
    unfold singletonFastPath
    rw [hns]
    simp
  refine ⟨?_, ?_, ?_⟩
  · intro fc hfc
    unfold resolveName
    simp only [hs, hr, hfp, hfc]
    rcases hrf : runFactory w f fc st with ⟨fr, st1, ev1⟩
    cases fr with
    | error e => exact ⟨ev1, rfl⟩
    | ok i =>
      exact ⟨ev1 ++ (finishCreate w key name reg st1 i).2.2, rfl⟩
  · intro i0 hfc hmws himp hlc
    have hrf : runFactory w (f + 1) (.constInst i0) st = (.ok i0, st, []) := by
      unfold runFactory
      simp only [exec]
    have hfin : finishCreate w key name reg st i0 = (.ok i0, st, []) := by
      unfold finishCreate
      simp [hmws, applyMiddlewares, runLifecycle, hlc, hns, himp]
    unfold resolveName
    simp only [hs, hr, hfp, hfc, hrf]
    rw [hfin]
    rfl
  · intro dyn hfc hmws himp hlc
    have hdistinct : (⟨st.nextId, dyn⟩ : Inst) ≠ ⟨st.nextId + 1, dyn⟩ := by
      intro h
      have := congrArg Inst.id h
      simp at this
    have main : ∀ (s2 : ContainerState), s2.services = st.services →
        s2.middlewares = [] →
        resolveName w (f + 1) key name s2 =
          (.ok ⟨s2.nextId, dyn⟩, { s2 with nextId := s2.nextId + 1 },
            [Event.factoryCall]) := by
      intro s2 hserv hmws2
      have hs2 : lookup2 s2.services key = some maps := by rw [hserv]; exact hs
      have hfp2 : singletonFastPath w s2 key name reg = none := by
        unfold singletonFastPath
        rw [hns]
        simp
      have hrf : runFactory w (f + 1) (.fresh dyn) s2 =
          (.ok ⟨s2.nextId, dyn⟩, { s2 with nextId := s2.nextId + 1 }, []) := by
        unfold runFactory
        simp only [exec]
      have hfin : finishCreate w key name reg
          { s2 with nextId := s2.nextId + 1 } ⟨s2.nextId, dyn⟩ =
          (.ok ⟨s2.nextId, dyn⟩, { s2 with nextId := s2.nextId + 1 }, []) := by
        unfold finishCreate
        simp [hmws2, applyMiddlewares, runLifecycle, hlc, hns, himp]
      unfold resolveName
      simp only [hs2, hr, hfp2, hfc, hrf]
      rw [hfin]
      rfl
    refine ⟨main st rfl hmws, ?_, hdistinct⟩
    have h2 := main { st with nextId := st.nextId + 1 } rfl hmws
    exact h2

theorem claim8_amended_witness :
    resolveName w0 3 40 "" stWI = (.ok ⟨999, 40⟩, stWI, [Event.factoryCall]) :=
  (claim8_amended_transient_semantics w0 2 40 "" stWI
    [("", { name := "", isSingleton := false,
            factory := some (.constInst ⟨999, 40⟩), interfaces := [] })]
    { name := "", isSingleton := false,
      factory := some (.constInst ⟨999, 40⟩), interfaces := [] }
    (by rfl) (by rfl) (by rfl)).2.1 ⟨999, 40⟩ (by rfl) (by rfl) (by rfl) (by rfl)

/-! ## Claim C10 -/

/-- The second list begins with the first (character version, for substring
checks). -/
def startsChars : List Char → List Char → Bool
  | [], _ => true
  | _ :: _, [] => false
  | a :: as, b :: bs => a == b && startsChars as bs

/-- `needle` occurs as a contiguous substring of `hay`. -/
def hasSub (needle : List Char) : List Char → Bool
  | [] => startsChars needle []
  | c :: rest => startsChars needle (c :: rest) || hasSub needle rest

/-- C10 is false as stated: with two failing options, `Register` aborts with
an error derived from the first failure only — the wrapped message does not
mention the second failing option at all (and nothing is registered). -/
theorem claim10_counterexample :
    register newServiceContainer ty40 [.failingOpt "e1", .failingOpt "e2"] =
      (some ("failed to complete registration: " ++ "e1"),
        newServiceContainer) ∧
    hasSub "e2".data ("failed to complete registration: " ++ "e1").data =
      false :=
  ⟨rfl, rfl⟩

theorem applyOpts_first_failing :
    ∀ (pre : List RegOption) (r : Registration),
    (∀ o ∈ pre, ∀ m, o ≠ RegOption.failingOpt m) →
    ∀ (post : List RegOption) (e : String),
    applyOpts r (pre ++ RegOption.failingOpt e :: post) = .error e := by
  intro pre
  induction pre with
  | nil => intro r _ post e; rfl
  | cons o rest ih =>
    intro r h post e
    have hrest : ∀ o2 ∈ rest, ∀ m, o2 ≠ RegOption.failingOpt m :=
      fun o2 ho2 m => h o2 (List.mem_cons_of_mem _ ho2) m
    cases o with
    | failingOpt m => exact absurd rfl (h _ (List.mem_cons_self _ _) m)
    | asSingleton =>
      simp only [List.cons_append, applyOpts, applyOpt]
      exact ih _ hrest post e
    | asFactory fc =>
      simp only [List.cons_append, applyOpts, applyOpt]
      exact ih _ hrest post e
    | withInstance i =>
      simp only [List.cons_append, applyOpts, applyOpt]
      exact ih _ hrest post e
    | withCap iface =>
      simp only [List.cons_append, applyOpts, applyOpt]
      exact ih _ hrest post e
    | withNamedCap iface n =>
      simp only [List.cons_append, applyOpts, applyOpt]
      exact ih _ hrest post e

/-- C10 amended: `Register` aborts at the first failing option, wrapping and
reporting only that option's error; later options are not reported, and the
container is unchanged. -/
theorem claim10_amended_first_option_error_only (st : ContainerState)
    (ty : GoTy) (pre post : List RegOption) (e : String)
    (hpre : ∀ o ∈ pre, ∀ m, o ≠ RegOption.failingOpt m) :
    register st ty (pre ++ RegOption.failingOpt e :: post) =
      (some ("failed to complete registration: " ++ e), st) := by
  unfold register buildRegistration
  rw [applyOpts_first_failing pre defaultRegistrationOptions hpre post e]

theorem claim10_witness :
    register newServiceContainer ty40 [.asSingleton, .failingOpt "bad"] =
      (some ("failed to complete registration: " ++ "bad"),
        newServiceContainer) :=
  claim10_amended_first_option_error_only newServiceContainer ty40
    [.asSingleton] [] "bad"
    (by
      intro o ho m
      simp only [List.mem_singleton] at ho
      subst ho
      exact fun h => nomatch h)

end Fabric
